import Mathlib

/-!
Verification of the StandX maker-points quoting engine
(`src/strategys/strategy_standx/maker_points.py`).

The Python code works on `Decimal` values (exact decimal arithmetic with
explicit truncating quantization), so prices, quantities and basis-point
distances are embedded as rationals `ℚ`, with the two quantization steps
(`Decimal("1")` and `Decimal("0.0001")`, both `ROUND_DOWN`, i.e. truncation
toward zero) made explicit.  The strategy cycle `run_strategy_cycle` is
embedded as a deterministic function over a model exchange state carrying
the open orders, the position, the balance, the ticker, and per-call
failure flags (a raised exception in the Python adapter corresponds to a
set failure flag); every adapter call is recorded in an event trace.
-/

namespace MakerPoints

/-- Order side, `"buy"` / `"sell"` in the Python source. -/
inductive Side
  | buy
  | sell
deriving DecidableEq, Repr

/-- Python `Decimal.quantize(..., rounding=ROUND_DOWN)` rounds toward zero:
floor for nonnegative arguments, ceiling for negative ones. -/
def truncToward0 (q : ℚ) : ℤ :=
  if 0 ≤ q then ⌊q⌋ else ⌈q⌉

/-- Embeds `price.quantize(Decimal("1"), rounding=ROUND_DOWN)` — tick size 1. -/
def quantizeTick (q : ℚ) : ℚ :=
  (truncToward0 q : ℚ)

/-- Embeds `quantity.quantize(Decimal("0.0001"), rounding=ROUND_DOWN)` — size
increment 0.0001. -/
def quantizeSize (q : ℚ) : ℚ :=
  (truncToward0 (q * 10000) : ℚ) / 10000

/-- Embeds `calculate_order_price(mark_price, target_bps, side)` (maker_points.py,
lines 117-139): `spread = mark*target_bps/10000`; buy below / sell above the
mark; result truncated down to the tick size of 1. -/
def calculate_order_price (mark_price target_bps : ℚ) (side : Side) : ℚ :=
  let spread := mark_price * target_bps / 10000
  match side with
  | .buy => quantizeTick (mark_price - spread)
  | .sell => quantizeTick (mark_price + spread)

/-- Embeds `calculate_order_quantity(balance, mark_price, balance_percent, leverage)`
(lines 142-159): `usable = balance*percent/100`;
`qty = usable/mark*leverage`, truncated down to 0.0001.  The division by
the mark is modelled as exact rational division; in the program the
`Decimal` quotient is first rounded to the 28-significant-digit context
(see the C9 theorems — immaterial to the downward-truncation bounds
proved about this function). -/
def calculate_order_quantity (balance mark_price balance_percent leverage : ℚ) : ℚ :=
  let usable_balance := balance * balance_percent / 100
  quantizeSize (usable_balance / mark_price * leverage)

/-- Embeds `get_current_bps(order_price, mark_price, side)` (lines 162-180):
signed distance from the mark, divided by the mark, times 10000.  The
division is modelled as exact rational division and the final
`float(bps)` conversion is dropped; in the program the `Decimal` quotient
is rounded to the 28-significant-digit context and the returned value is
a binary float (see the C9 theorems — immaterial to the tolerance and
band-structure claims proved about this function). -/
def get_current_bps (order_price mark_price : ℚ) (side : Side) : ℚ :=
  let distance := match side with
    | .buy => mark_price - order_price
    | .sell => order_price - mark_price
  distance / mark_price * 10000

/-- Outcome of the band test on an existing order (lines 346-353):
keep inside the band, otherwise cancel, tagged too-close or too-far. -/
inductive BandDecision
  | keep
  | cancelTooClose
  | cancelTooFar
deriving DecidableEq, Repr

/-- The band test of lines 346-353: `min_bps <= current_bps <= max_bps`
keeps the order; otherwise it is cancelled, with the reason chosen by
`current_bps < min_bps`. -/
def evaluate_band (current_bps min_bps max_bps : ℚ) : BandDecision :=
  if min_bps ≤ current_bps ∧ current_bps ≤ max_bps then .keep
  else if current_bps < min_bps then .cancelTooClose
  else .cancelTooFar

/- ### Model of the exchange adapter and the strategy cycle -/

/-- Order status strings of the adapter; `get_existing_orders` treats
`pending`, `open` and `partially_filled` as live. -/
inductive OrderStatus
  | pending
  | open_
  | partially_filled
  | filled
  | cancelled
deriving DecidableEq, Repr

/-- An open order as reported by `adapter.get_open_orders`. -/
structure Order where
  order_id : Nat
  side : Side
  price : ℚ
  quantity : ℚ
  status : OrderStatus
deriving DecidableEq, Repr

/-- The ticker dict: `mark_price`, `mid_price`, `last_price` keys, each
possibly absent. -/
structure Ticker where
  mark_price : Option ℚ
  mid_price : Option ℚ
  last_price : Option ℚ
deriving DecidableEq, Repr

/-- A position as reported by `adapter.get_position`. -/
structure Position where
  size : ℚ
  leverage : Option ℚ
deriving DecidableEq, Repr

/-- The balance object: `total_balance` / `equity` attributes may be
absent, `available_balance` is always present. -/
structure Balance where
  total_balance : Option ℚ
  equity : Option ℚ
  available_balance : ℚ
deriving DecidableEq, Repr

/-- Python `a or b` on optional numbers: `a` wins iff it is truthy
(present and nonzero). -/
def pyOr (a b : Option ℚ) : Option ℚ :=
  match a with
  | some q => if q = 0 then b else some q
  | none => b

/-- Python truthiness of an optional number. -/
def pyTruthy (o : Option ℚ) : Bool :=
  match o with
  | some q => q != 0
  | none => false

/-- Lines 238-241: `ticker.get('mark_price') or ticker.get('mid_price') or
ticker.get('last_price')`, then `if not mark_price: return False` — the
effective mark price, `none` when missing or falsy (zero). -/
def effective_mark (t : Ticker) : Option ℚ :=
  match pyOr (pyOr t.mark_price t.mid_price) t.last_price with
  | some q => if q = 0 then none else some q
  | none => none

/-- Lines 294-296: `total_balance or equity or available_balance`. -/
def total_equity_of (b : Balance) : ℚ :=
  match pyOr (pyOr b.total_balance b.equity) (some b.available_balance) with
  | some q => q
  | none => b.available_balance

/-- Strategy configuration (the `maker_points` section plus the dry-run
flag). -/
structure Config where
  target_bps : ℚ
  max_bps : ℚ
  min_bps : ℚ
  balance_percent : ℚ
  leverage : ℚ
  sleep_time : ℚ
  dry_run : Bool := false
deriving DecidableEq, Repr

/-- Model exchange state: what the venue holds, plus failure flags that
model an adapter call raising an exception. -/
structure ExchangeState where
  orders : List Order
  next_id : Nat
  position : Option Position
  balance : Balance
  ticker : Ticker
  failTicker : Bool := false
  failGetPosition : Bool := false
  failCancelAll : Bool := false
  failClose : Bool := false
  failGetBalance : Bool := false
  failGetOrders : Bool := false
  failCancelIds : List Nat := []
  failPlaceBuy : Bool := false
  failPlaceSell : Bool := false
deriving DecidableEq, Repr

/-- Trace of adapter calls and sleeps made during one cycle.  A call that
raises is still recorded (the request was issued). -/
inductive Event
  | getTicker
  | getPosition
  | cancelAllOrders
  | closePosition
  | sleep (t : ℚ)
  | changeLeverage (lev : ℤ)
  | getBalance
  | getOpenOrders
  | cancelOrder (id : Nat)
  | placeOrder (side : Side) (price quantity : ℚ) (lev : ℤ)
deriving DecidableEq, Repr

/-- Python `int(...)` on a number truncates toward zero. -/
def intTrunc (q : ℚ) : ℤ :=
  truncToward0 q

/-- Result of the position-guard step (lines 247-276). -/
structure GuardResult where
  state : ExchangeState
  trace : List Event
  existing_position_leverage : Option ℚ
deriving DecidableEq, Repr

/-- Lines 247-276: read the position; on a non-zero size, cancel all
orders (inner `try`, failure swallowed, sleep only on success), then close
the position (a raise here is caught by the outer `except`, so the
remembered position leverage survives), then sleep and forget the
position leverage.  A raise in `get_position` is caught by the outer
`except` as well. -/
def position_guard (cfg : Config) (s : ExchangeState) : GuardResult :=
  if s.failGetPosition then ⟨s, [.getPosition], none⟩
  else
    match s.position with
    | none => ⟨s, [.getPosition], none⟩
    | some p =>
      if p.size = 0 then ⟨s, [.getPosition], none⟩
      else
        let plev : Option ℚ := match p.leverage with
          | some l => if l = 0 then none else some l
          | none => none
        let s1 : ExchangeState := if s.failCancelAll then s else { s with orders := [] }
        let tr1 : List Event :=
          if s.failCancelAll then [.getPosition, .cancelAllOrders]
          else [.getPosition, .cancelAllOrders, .sleep cfg.sleep_time]
        if s.failClose then ⟨s1, tr1 ++ [.closePosition], plev⟩
        else ⟨{ s1 with position := none }, tr1 ++ [.closePosition, .sleep cfg.sleep_time], none⟩

/-- Line 280: `int(existing_position_leverage) if existing_position_leverage
else int(leverage)`. -/
def order_leverage_of (cfg : Config) (plev : Option ℚ) : ℤ :=
  if pyTruthy plev then intTrunc (plev.getD 0) else intTrunc cfg.leverage

/-- Lines 193-199: live statuses. -/
def is_live (st : OrderStatus) : Bool :=
  match st with
  | .pending => true
  | .open_ => true
  | .partially_filled => true
  | _ => false

/-- One iteration of the loop of `get_existing_orders` (lines 193-199):
a live order overwrites its side's dict entry. -/
def scan_step (r : Option Order × Option Order) (o : Order) :
    Option Order × Option Order :=
  if is_live o.status then
    match o.side with
    | .buy => (some o, r.2)
    | .sell => (r.1, some o)
  else r

/-- The loop of `get_existing_orders` (lines 192-199): the dict keeps,
per side, the last live order seen. -/
def scan_orders (orders : List Order) : Option Order × Option Order :=
  orders.foldl scan_step (none, none)

/-- Embeds `get_existing_orders(adapter, symbol)` (lines 183-202): on a raise of
`get_open_orders` the `except` clause leaves both sides `None`. -/
def get_existing_orders (s : ExchangeState) : Option Order × Option Order :=
  if s.failGetOrders then (none, none) else scan_orders s.orders

/-- An entry of `sides_to_place` (lines 371-376). -/
structure PlaceInfo where
  side : Side
  price : ℚ
  quantity : ℚ
deriving DecidableEq, Repr

/-- Whether `place_order` raises for this side in the model. -/
def failPlace (s : ExchangeState) (side : Side) : Bool :=
  match side with
  | .buy => s.failPlaceBuy
  | .sell => s.failPlaceSell

/-- Result of processing one side in step 5 (lines 316-376). -/
structure SideResult where
  state : ExchangeState
  trace : List Event
  to_place : Option PlaceInfo
deriving DecidableEq, Repr

/-- One iteration of the per-side loop (lines 316-376): skip the side when
the fixed quantity is below one increment; keep an in-band existing order;
cancel an out-of-band one (a raise of `cancel_order` makes the loop
`continue`, so the side is not re-placed); a side without a live order, or
whose cancel succeeded (or `dry_run`), is appended to `sides_to_place`. -/
def process_side (cfg : Config) (mark fixed_quantity : ℚ)
    (existing : Option Order) (side : Side) (s : ExchangeState) : SideResult :=
  let target_price := calculate_order_price mark cfg.target_bps side
  if fixed_quantity < 1/10000 then ⟨s, [], none⟩
  else
    match existing with
    | none => ⟨s, [], some ⟨side, target_price, fixed_quantity⟩⟩
    | some o =>
      let current_bps := get_current_bps o.price mark side
      match evaluate_band current_bps cfg.min_bps cfg.max_bps with
      | .keep => ⟨s, [], none⟩
      | _ =>
        if cfg.dry_run then ⟨s, [], some ⟨side, target_price, fixed_quantity⟩⟩
        else if o.order_id ∈ s.failCancelIds then
          ⟨s, [.cancelOrder o.order_id], none⟩
        else
          ⟨{ s with orders := s.orders.filter (fun x => x.order_id ≠ o.order_id) },
           [.cancelOrder o.order_id], some ⟨side, target_price, fixed_quantity⟩⟩

/-- One iteration of the placement loop (lines 384-425): skip a
below-increment quantity, skip the adapter call in dry-run, record the
call, and on success append the new order (a raise is caught and only
logged). -/
def place_one (cfg : Config) (order_lev : ℤ) (info : PlaceInfo)
    (s : ExchangeState) : ExchangeState × List Event :=
  if info.quantity < 1/10000 then (s, [])
  else if cfg.dry_run then (s, [])
  else if failPlace s info.side then
    (s, [.placeOrder info.side info.price info.quantity order_lev])
  else
    ({ s with
        orders := s.orders ++ [⟨s.next_id, info.side, info.price, info.quantity, .open_⟩],
        next_id := s.next_id + 1 },
     [.placeOrder info.side info.price info.quantity order_lev])

/-- The placement loop over `sides_to_place`. -/
def place_all (cfg : Config) (order_lev : ℤ) (infos : List PlaceInfo)
    (s : ExchangeState) : ExchangeState × List Event :=
  match infos with
  | [] => (s, [])
  | i :: rest =>
    let r := place_one cfg order_lev i s
    let r2 := place_all cfg order_lev rest r.1
    (r2.1, r.2 ++ r2.2)

/-- Line 304: the per-cycle fixed quantity — `calculate_order_quantity`
applied to the total equity with the halved `balance_percent`. -/
def cycle_fixed_quantity (cfg : Config) (mark total_equity : ℚ) (order_lev : ℤ) : ℚ :=
  calculate_order_quantity total_equity mark (cfg.balance_percent / 2) (order_lev : ℚ)

/-- Result of one strategy cycle: the returned boolean, the final exchange
state, and the trace of adapter calls. -/
structure CycleResult where
  ok : Bool
  state : ExchangeState
  trace : List Event
deriving DecidableEq, Repr

/-- Steps 3b-7 of `run_strategy_cycle` (lines 302-425), entered once the
balance fetch succeeded: compute the fixed per-side quantity from the
total equity, fetch the existing orders, process the buy then the sell
side, sleep once if anything is to be placed, then run the placement
loop. -/
def cycle_quote_step (cfg : Config) (mark : ℚ) (olev : ℤ) (st : ExchangeState) :
    ExchangeState × List Event :=
  let te := total_equity_of st.balance
  let fixed_quantity := cycle_fixed_quantity cfg mark te olev
  let existing := get_existing_orders st
  let rB := process_side cfg mark fixed_quantity existing.1 .buy st
  let rS := process_side cfg mark fixed_quantity existing.2 .sell rB.state
  let toPlace := [rB.to_place, rS.to_place].filterMap id
  let tr5 := [Event.getOpenOrders] ++ rB.trace ++ rS.trace
  let tr6 := if !toPlace.isEmpty && !cfg.dry_run
             then tr5 ++ [.sleep cfg.sleep_time] else tr5
  let pl := place_all cfg olev toPlace rS.state
  (pl.1, tr6 ++ pl.2)

/-- Embeds `run_strategy_cycle(adapter, config, dry_run)` (lines 205-467), with
the UI rendering omitted: fetch the ticker (a raise or a missing/falsy
price returns `False`); run the position guard; set the leverage when no
position leverage survived; fetch the balance (a raise returns `False`);
then run the quoting steps and return `True`. -/
def run_strategy_cycle (cfg : Config) (s0 : ExchangeState) : CycleResult :=
  if s0.failTicker then ⟨false, s0, [.getTicker]⟩
  else
    match effective_mark s0.ticker with
    | none => ⟨false, s0, [.getTicker]⟩
    | some mark =>
      let g := position_guard cfg s0
      let olev := order_leverage_of cfg g.existing_position_leverage
      let tr1 := Event.getTicker :: g.trace
      let tr2 := if !pyTruthy g.existing_position_leverage && !cfg.dry_run
                 then tr1 ++ [.changeLeverage olev] else tr1
      let tr3 := tr2 ++ [.getBalance]
      if g.state.failGetBalance then ⟨false, g.state, tr3⟩
      else
        let q := cycle_quote_step cfg mark olev g.state
        ⟨true, q.1, tr3 ++ q.2⟩

/-- Whether an order is a live order of the given side. -/
def liveOn (side : Side) (o : Order) : Bool :=
  decide (o.side = side) && is_live o.status

/-- Number of live orders a state holds on one side. -/
def live_count (s : ExchangeState) (side : Side) : Nat :=
  s.orders.countP (liveOn side)

/-- Quote-maintenance actions: placing an order or cancelling an
individual order. -/
def is_quote_action (e : Event) : Bool :=
  match e with
  | .cancelOrder _ => true
  | .placeOrder _ _ _ _ => true
  | _ => false

/- ### Spec-side formulas (for the refinement claim C9) -/

/-- Modelled from the spec, §4.1: `quote_price(mark, target_bps, side)` —
for Buy `mark − mark·target_bps/10000`, for Sell `mark +
mark·target_bps/10000`, truncated to the tick size. -/
def spec_quote_price (mark target_bps : ℚ) (side : Side) : ℚ :=
  match side with
  | .buy => quantizeTick (mark - mark * target_bps / 10000)
  | .sell => quantizeTick (mark + mark * target_bps / 10000)

/-- Modelled from the spec, §4.1: `distance_bps(quote_price, mark, side)` —
for Buy `(mark − quote_price)/mark·10000`, for Sell `(quote_price −
mark)/mark·10000`. -/
def spec_distance_bps (quote_price mark : ℚ) (side : Side) : ℚ :=
  match side with
  | .buy => (mark - quote_price) / mark * 10000
  | .sell => (quote_price - mark) / mark * 10000

/-- A rational exactly representable by a binary floating-point number
(every IEEE-754 double is of the form `m / 2^e`). -/
def IsDyadicRat (q : ℚ) : Prop :=
  ∃ (m : ℤ) (e : ℕ), q = (m : ℚ) / 2 ^ e

/-- A rational exactly representable by a finite Python `Decimal` value:
every finite `Decimal` is an integer coefficient times a power of ten,
i.e. of the form `m / 10^e`.  `Decimal` division rounds its quotient to
the context precision (28 significant digits by default), so it can only
ever produce such values. -/
def IsFiniteDecimal (q : ℚ) : Prop :=
  ∃ (m : ℤ) (e : ℕ), q = (m : ℚ) / 10 ^ e

/- ### Basic facts about the truncation -/

theorem truncToward0_le_of_nonneg (q : ℚ) (h : 0 ≤ q) :
    (truncToward0 q : ℚ) ≤ q := by
  unfold truncToward0
  rw [if_pos h]
  exact Int.floor_le q

theorem truncToward0_nonneg (q : ℚ) (h : 0 ≤ q) : 0 ≤ (truncToward0 q : ℚ) := by
  unfold truncToward0
  rw [if_pos h]
  exact_mod_cast Int.floor_nonneg.mpr h

theorem sub_one_lt_truncToward0 (q : ℚ) : q - 1 < (truncToward0 q : ℚ) := by
  unfold truncToward0
  split
  · exact Int.sub_one_lt_floor q
  · have h1 : q ≤ (⌈q⌉ : ℚ) := Int.le_ceil q
    linarith

theorem truncToward0_lt_add_one (q : ℚ) : (truncToward0 q : ℚ) < q + 1 := by
  unfold truncToward0
  split
  · have h1 : (⌊q⌋ : ℚ) ≤ q := Int.floor_le q
    linarith
  · exact Int.ceil_lt_add_one q

theorem abs_truncToward0_sub_lt_one (q : ℚ) : |(truncToward0 q : ℚ) - q| < 1 := by
  rw [abs_sub_lt_iff]
  constructor
  · have := sub_one_lt_truncToward0 q
    linarith [truncToward0_lt_add_one q]
  · have := sub_one_lt_truncToward0 q
    linarith

theorem quantizeTick_le_of_nonneg (q : ℚ) (h : 0 ≤ q) : quantizeTick q ≤ q :=
  truncToward0_le_of_nonneg q h

theorem quantizeSize_nonneg (q : ℚ) (h : 0 ≤ q) : 0 ≤ quantizeSize q := by
  unfold quantizeSize
  have h1 : 0 ≤ (truncToward0 (q * 10000) : ℚ) :=
    truncToward0_nonneg _ (by positivity)
  positivity

theorem quantizeSize_le_of_nonneg (q : ℚ) (h : 0 ≤ q) : quantizeSize q ≤ q := by
  unfold quantizeSize
  have h1 : (truncToward0 (q * 10000) : ℚ) ≤ q * 10000 :=
    truncToward0_le_of_nonneg _ (by positivity)
  linarith

theorem get_current_bps_buy (p m : ℚ) :
    get_current_bps p m Side.buy = (m - p) / m * 10000 := rfl

theorem get_current_bps_sell (p m : ℚ) :
    get_current_bps p m Side.sell = (p - m) / m * 10000 := rfl

theorem calculate_order_price_buy (m t : ℚ) :
    calculate_order_price m t Side.buy = quantizeTick (m - m * t / 10000) := rfl

theorem calculate_order_price_sell (m t : ℚ) :
    calculate_order_price m t Side.sell = quantizeTick (m + m * t / 10000) := rfl

/-- Claim C4: composing the two pure price functions round-trips: for every
side, mark price `m > 0` and target, the basis-point distance of the quoted
price from the mark differs from the target by at most one tick-size unit
(tick 1, i.e. `10000/m` in bps) of truncation error. -/
theorem claim_C4_roundtrip (m t : ℚ) (side : Side) (hm : 0 < m) :
    |get_current_bps (calculate_order_price m t side) m side - t| ≤ 10000 / m := by
  have hne : m ≠ 0 := ne_of_gt hm
  have hpos : (0:ℚ) < 10000 / m := by positivity
  cases side with
  | buy =>
    rw [calculate_order_price_buy, get_current_bps_buy]
    have key : (m - quantizeTick (m - m * t / 10000)) / m * 10000 - t
        = ((m - m * t / 10000) - quantizeTick (m - m * t / 10000)) * (10000 / m) := by
      field_simp
      ring
    rw [key, abs_mul, abs_of_pos hpos]
    have h3 : |(m - m * t / 10000) - quantizeTick (m - m * t / 10000)| ≤ 1 := by
      have h4 := abs_truncToward0_sub_lt_one (m - m * t / 10000)
      rw [abs_sub_comm] at h4
      exact le_of_lt h4
    calc |(m - m * t / 10000) - quantizeTick (m - m * t / 10000)| * (10000 / m)
        ≤ 1 * (10000 / m) := mul_le_mul_of_nonneg_right h3 (le_of_lt hpos)
      _ = 10000 / m := one_mul _
  | sell =>
    rw [calculate_order_price_sell, get_current_bps_sell]
    have key : (quantizeTick (m + m * t / 10000) - m) / m * 10000 - t
        = (quantizeTick (m + m * t / 10000) - (m + m * t / 10000)) * (10000 / m) := by
      field_simp
      ring
    rw [key, abs_mul, abs_of_pos hpos]
    have h3 : |quantizeTick (m + m * t / 10000) - (m + m * t / 10000)| ≤ 1 :=
      le_of_lt (abs_truncToward0_sub_lt_one (m + m * t / 10000))
    calc |quantizeTick (m + m * t / 10000) - (m + m * t / 10000)| * (10000 / m)
        ≤ 1 * (10000 / m) := mul_le_mul_of_nonneg_right h3 (le_of_lt hpos)
      _ = 10000 / m := one_mul _

/-- Witness for C4 at Scenario A of the spec: mark 100000, target 9 bps,
buy side — the quote 99910 round-trips to exactly 9 bps. -/
theorem claim_C4_roundtrip_witness :
    (0:ℚ) < 100000
    ∧ |get_current_bps (calculate_order_price 100000 9 Side.buy) 100000 Side.buy - 9|
        ≤ 10000 / 100000 :=
  ⟨by norm_num, claim_C4_roundtrip 100000 9 Side.buy (by norm_num)⟩

/-- Claim C7 is false as stated: at mark 100000 with `target_bps = 0` the
buy price equals the mark (not strictly below it), and at the fractional
mark 100.9 with `target_bps = 1` the sell price 100 is strictly below the
mark, because the tick truncation always rounds down. -/
theorem claim_C7_counterexample :
    ¬ (calculate_order_price 100000 0 Side.buy < 100000)
    ∧ ¬ ((1009/10 : ℚ) ≤ calculate_order_price (1009/10) 1 Side.sell) := by
  constructor
  · norm_num [calculate_order_price_buy, quantizeTick, truncToward0]
  · norm_num [calculate_order_price_sell, quantizeTick, truncToward0]

/-- Claim C7, amended: for every mark `m > 0` and `target_bps > 0`, the Buy
quote price is strictly below the mark, the Sell quote price is above
`m - 1` (within one tick below the mark), and when the mark is tick-aligned
(an integer) the Sell quote price is at least the mark. -/
theorem claim_C7_amended (m t : ℚ) (hm : 0 < m) (ht : 0 < t) :
    calculate_order_price m t Side.buy < m
    ∧ m - 1 < calculate_order_price m t Side.sell
    ∧ (∀ k : ℤ, m = (k : ℚ) → m ≤ calculate_order_price m t Side.sell) := by
  have hspread : 0 < m * t / 10000 := by positivity
  refine ⟨?_, ?_, ?_⟩
  · rw [calculate_order_price_buy]
    unfold quantizeTick truncToward0
    split
    · have h1 : (⌊m - m * t / 10000⌋ : ℚ) ≤ m - m * t / 10000 := Int.floor_le _
      linarith
    · rename_i hneg
      push_neg at hneg
      have h1 : ⌈m - m * t / 10000⌉ ≤ (0:ℤ) :=
        Int.ceil_le.mpr (by push_cast; linarith)
      have h2 : ((⌈m - m * t / 10000⌉ : ℤ) : ℚ) ≤ 0 := by exact_mod_cast h1
      linarith
  · rw [calculate_order_price_sell]
    unfold quantizeTick truncToward0
    rw [if_pos (by positivity : (0:ℚ) ≤ m + m * t / 10000)]
    have h1 : m + m * t / 10000 - 1 < (⌊m + m * t / 10000⌋ : ℚ) :=
      Int.sub_one_lt_floor _
    linarith
  · intro k hk
    rw [calculate_order_price_sell]
    unfold quantizeTick truncToward0
    rw [if_pos (by positivity : (0:ℚ) ≤ m + m * t / 10000)]
    have h1 : k ≤ ⌊m + m * t / 10000⌋ :=
      Int.le_floor.mpr (by rw [← hk]; linarith)
    calc m = (k : ℚ) := hk
      _ ≤ (⌊m + m * t / 10000⌋ : ℚ) := by exact_mod_cast h1

/-- Witness for the amended C7 at mark 100000, target 9 bps. -/
theorem claim_C7_amended_witness :
    ((0:ℚ) < 100000 ∧ (0:ℚ) < 9)
    ∧ (calculate_order_price 100000 9 Side.buy < 100000
       ∧ (100000:ℚ) - 1 < calculate_order_price 100000 9 Side.sell
       ∧ (∀ k : ℤ, (100000:ℚ) = (k : ℚ) →
            (100000:ℚ) ≤ calculate_order_price 100000 9 Side.sell)) :=
  ⟨⟨by norm_num, by norm_num⟩, claim_C7_amended 100000 9 (by norm_num) (by norm_num)⟩

/-- Claim C8 is false as stated: at the integer mark 100001 with target 9
bps, the Sell price is truncated downward (toward the mark), leaving a
distance of `900000/100001 < 9` bps — the truncation made the quote closer
to the mark than the target. -/
theorem claim_C8_counterexample :
    get_current_bps (calculate_order_price 100001 9 Side.sell) 100001 Side.sell < 9 := by
  rw [calculate_order_price_sell, get_current_bps_sell]
  norm_num [quantizeTick, truncToward0]

/-- Claim C8, amended: on the Buy side (for `0 ≤ target_bps ≤ 10000`) the
truncation never moves the quote closer to the mark than the target —
`distance_bps ≥ target_bps`; on the Sell side the downward truncation can
move the quote toward the mark by up to one tick, so the distance can fall
short of the target by less than one tick's worth of bps —
`distance_bps > target_bps - 10000/m`. -/
theorem claim_C8_amended (m t : ℚ) (hm : 0 < m) (ht0 : 0 ≤ t) (ht : t ≤ 10000) :
    t ≤ get_current_bps (calculate_order_price m t Side.buy) m Side.buy
    ∧ t - 10000 / m <
        get_current_bps (calculate_order_price m t Side.sell) m Side.sell := by
  have hne : m ≠ 0 := ne_of_gt hm
  have hxnn : (0:ℚ) ≤ m - m * t / 10000 := by
    have h1 : m * t ≤ m * 10000 := mul_le_mul_of_nonneg_left ht (le_of_lt hm)
    linarith
  constructor
  · rw [calculate_order_price_buy, get_current_bps_buy]
    have hfl : quantizeTick (m - m * t / 10000) ≤ m - m * t / 10000 :=
      quantizeTick_le_of_nonneg _ hxnn
    rw [div_mul_eq_mul_div, le_div_iff₀ hm]
    nlinarith
  · rw [calculate_order_price_sell, get_current_bps_sell]
    have hfl : m + m * t / 10000 - 1 < quantizeTick (m + m * t / 10000) :=
      sub_one_lt_truncToward0 _
    rw [div_mul_eq_mul_div, lt_div_iff₀ hm]
    have hexp : (t - 10000 / m) * m = t * m - 10000 := by
      field_simp
    rw [hexp]
    nlinarith

/-- Witness for the amended C8 at mark 100000, target 9 bps. -/
theorem claim_C8_amended_witness :
    ((0:ℚ) < 100000 ∧ (0:ℚ) ≤ 9 ∧ (9:ℚ) ≤ 10000)
    ∧ ((9:ℚ) ≤ get_current_bps (calculate_order_price 100000 9 Side.buy) 100000 Side.buy
       ∧ (9:ℚ) - 10000 / 100000 <
           get_current_bps (calculate_order_price 100000 9 Side.sell) 100000 Side.sell) :=
  ⟨⟨by norm_num, by norm_num, by norm_num⟩,
   claim_C8_amended 100000 9 (by norm_num) (by norm_num) (by norm_num)⟩

/-- Claim C5: in a two-sided cycle each side is sized by
`cycle_fixed_quantity`, i.e. with the allocation percent halved, and the
sum of the two sides' target notionals (price times quantity) never
exceeds `capital_base * allocation_pct/100 * leverage` (the proof gives
the bound outright, with no rounding slack needed, since both the
quantity and the prices are truncated downward). -/
theorem claim_C5_capital (cfg : Config) (E m : ℚ) (olev : ℤ)
    (hE : 0 ≤ E) (hp : 0 ≤ cfg.balance_percent) (hL : 0 ≤ (olev : ℚ))
    (hm : 0 < m) (ht0 : 0 ≤ cfg.target_bps) (ht : cfg.target_bps ≤ 10000) :
    calculate_order_price m cfg.target_bps Side.buy * cycle_fixed_quantity cfg m E olev
      + calculate_order_price m cfg.target_bps Side.sell * cycle_fixed_quantity cfg m E olev
      ≤ E * (cfg.balance_percent / 100) * (olev : ℚ) := by
  have hne : m ≠ 0 := ne_of_gt hm
  have hraw : (0:ℚ) ≤ E * (cfg.balance_percent / 2) / 100 / m * (olev : ℚ) := by positivity
  have hq0 : 0 ≤ cycle_fixed_quantity cfg m E olev := by
    unfold cycle_fixed_quantity calculate_order_quantity
    exact quantizeSize_nonneg _ hraw
  have hqle : cycle_fixed_quantity cfg m E olev
      ≤ E * (cfg.balance_percent / 2) / 100 / m * (olev : ℚ) := by
    unfold cycle_fixed_quantity calculate_order_quantity
    exact quantizeSize_le_of_nonneg _ hraw
  have hxnn : (0:ℚ) ≤ m - m * cfg.target_bps / 10000 := by
    have h1 : m * cfg.target_bps ≤ m * 10000 :=
      mul_le_mul_of_nonneg_left ht (le_of_lt hm)
    linarith
  have hbp : calculate_order_price m cfg.target_bps Side.buy
      ≤ m - m * cfg.target_bps / 10000 := by
    rw [calculate_order_price_buy]
    exact quantizeTick_le_of_nonneg _ hxnn
  have hsp : calculate_order_price m cfg.target_bps Side.sell
      ≤ m + m * cfg.target_bps / 10000 := by
    rw [calculate_order_price_sell]
    exact quantizeTick_le_of_nonneg _ (by positivity)
  have hsum : calculate_order_price m cfg.target_bps Side.buy
      + calculate_order_price m cfg.target_bps Side.sell ≤ 2 * m := by
    linarith
  have hstep : (calculate_order_price m cfg.target_bps Side.buy
      + calculate_order_price m cfg.target_bps Side.sell)
        * cycle_fixed_quantity cfg m E olev
      ≤ 2 * m * (E * (cfg.balance_percent / 2) / 100 / m * (olev : ℚ)) := by
    calc (calculate_order_price m cfg.target_bps Side.buy
        + calculate_order_price m cfg.target_bps Side.sell)
          * cycle_fixed_quantity cfg m E olev
        ≤ 2 * m * cycle_fixed_quantity cfg m E olev :=
          mul_le_mul_of_nonneg_right hsum hq0
      _ ≤ 2 * m * (E * (cfg.balance_percent / 2) / 100 / m * (olev : ℚ)) := by
          apply mul_le_mul_of_nonneg_left hqle
          positivity
  have hfinal : 2 * m * (E * (cfg.balance_percent / 2) / 100 / m * (olev : ℚ))
      = E * (cfg.balance_percent / 100) * (olev : ℚ) := by
    field_simp
    ring
  nlinarith [hstep]

/-- Witness for C5: equity 1000, mark 100000, leverage 1 and the default
configuration (target 9 bps, 90 percent allocation). -/
theorem claim_C5_capital_witness :
    ((0:ℚ) ≤ 1000 ∧ (0:ℚ) ≤ (90:ℚ) ∧ (0:ℚ) ≤ ((1:ℤ) : ℚ)
      ∧ (0:ℚ) < 100000 ∧ (0:ℚ) ≤ (9:ℚ) ∧ (9:ℚ) ≤ 10000)
    ∧ calculate_order_price 100000 (9:ℚ) Side.buy
        * cycle_fixed_quantity ⟨9, 10, 8, 90, 1, 0, false⟩ 100000 1000 1
      + calculate_order_price 100000 (9:ℚ) Side.sell
        * cycle_fixed_quantity ⟨9, 10, 8, 90, 1, 0, false⟩ 100000 1000 1
      ≤ 1000 * ((90:ℚ) / 100) * ((1:ℤ) : ℚ) :=
  ⟨⟨by norm_num, by norm_num, by norm_num, by norm_num, by norm_num, by norm_num⟩,
   claim_C5_capital ⟨9, 10, 8, 90, 1, 0, false⟩ 1000 100000 1
     (by norm_num) (by norm_num) (by norm_num) (by norm_num) (by norm_num) (by norm_num)⟩

theorem not_dyadic_10000_div_3 : ¬ IsDyadicRat (10000 / 3) := by
  rintro ⟨n, e, hme⟩
  have h2 : ((2:ℚ) ^ e) ≠ 0 := by positivity
  rw [div_eq_div_iff (by norm_num) h2] at hme
  have h3 : (10000 * 2 ^ e : ℤ) = n * 3 := by exact_mod_cast hme
  have h4 : (3:ℤ) ∣ 10000 * 2 ^ e := ⟨n, by linarith⟩
  rcases (Int.prime_three.dvd_mul).mp h4 with h5 | h5
  · norm_num at h5
  · have h6 : (3:ℤ) ∣ 2 := Int.prime_three.dvd_of_dvd_pow h5
    norm_num at h6

theorem not_finite_decimal_10000_div_3 : ¬ IsFiniteDecimal (10000 / 3) := by
  rintro ⟨n, e, hme⟩
  have h2 : ((10:ℚ) ^ e) ≠ 0 := by positivity
  rw [div_eq_div_iff (by norm_num) h2] at hme
  have h3 : (10000 * 10 ^ e : ℤ) = n * 3 := by exact_mod_cast hme
  have h4 : (3:ℤ) ∣ 10000 * 10 ^ e := ⟨n, by linarith⟩
  rcases (Int.prime_three.dvd_mul).mp h4 with h5 | h5
  · norm_num at h5
  · have h6 : (3:ℤ) ∣ 10 := Int.prime_three.dvd_of_dvd_pow h5
    norm_num at h6

/-- Claim C9 is false as stated: at order price 2 against mark 3, the
exact rational result of the spec's distance formula is `10000/3` bps,
which is neither a finite decimal `m/10^e` nor a dyadic rational `m/2^e`.
Every value a Python `Decimal` can hold is a finite decimal, so the
context-rounded quotient the code computes at line 179 cannot equal the
exact result (the 28-digit context yields `3333.333333333333333333333333`),
and every `float` is dyadic, so the value returned at line 180 and
compared against the band cannot equal it either — at this input the
computed value differs from the exact rational result of the spec
formula, whatever the context precision. -/
theorem claim_C9_counterexample :
    spec_distance_bps 2 3 Side.buy = 10000 / 3
    ∧ ¬ IsFiniteDecimal (10000 / 3)
    ∧ ¬ IsDyadicRat (10000 / 3) :=
  ⟨by norm_num [spec_distance_bps], not_finite_decimal_10000_div_3,
   not_dyadic_10000_div_3⟩

/-- Claim C9, amended: the quote-price arithmetic coincides with the exact
rational spec formula (for program inputs its products and sums stay
within the `Decimal` context precision, and dividing by the literal 10000
only shifts the exponent); but the distance and sizing computations
divide by the mark — a quotient the `Decimal` context rounds to 28
significant digits — and the distance is then converted to a binary float
for the band comparison, with the mark itself passed through `float`.
Computed values therefore need not equal the exact rational results:
there are inputs whose exact distance is representable in neither number
system the program uses. -/
theorem claim_C9_amended :
    (∀ (m t : ℚ) (side : Side),
        calculate_order_price m t side = spec_quote_price m t side)
    ∧ ∃ op mp : ℚ, ¬ IsFiniteDecimal (spec_distance_bps op mp Side.buy)
        ∧ ¬ IsDyadicRat (spec_distance_bps op mp Side.buy) := by
  constructor
  · intro m t side
    cases side <;> rfl
  · refine ⟨2, 3, ?_, ?_⟩
    · have h1 : spec_distance_bps 2 3 Side.buy = 10000 / 3 := by
        norm_num [spec_distance_bps]
      rw [h1]
      exact not_finite_decimal_10000_div_3
    · have h1 : spec_distance_bps 2 3 Side.buy = 10000 / 3 := by
        norm_num [spec_distance_bps]
      rw [h1]
      exact not_dyadic_10000_div_3

/-- Claim C1: for an existing resting quote evaluated against the mark
(with a placeable fixed quantity, a live run, and a well-formed band
`min_bps ≤ max_bps`): a distance inside `[min_bps, max_bps]` KEEPs it —
the per-side step takes no exchange action and leaves the state
untouched; a distance below `min_bps` cancels it with reason too-close; a
distance above `max_bps` cancels it with reason too-far; and the band
test has no other outcome. -/
theorem claim_C1_band (cfg : Config) (s : ExchangeState) (mark fq : ℚ)
    (o : Order) (side : Side)
    (hband : cfg.min_bps ≤ cfg.max_bps) (hq : ¬ fq < 1/10000)
    (hd : cfg.dry_run = false) :
    (cfg.min_bps ≤ get_current_bps o.price mark side
        ∧ get_current_bps o.price mark side ≤ cfg.max_bps →
      process_side cfg mark fq (some o) side s = ⟨s, [], none⟩)
    ∧ (get_current_bps o.price mark side < cfg.min_bps →
      evaluate_band (get_current_bps o.price mark side) cfg.min_bps cfg.max_bps
          = BandDecision.cancelTooClose
        ∧ (process_side cfg mark fq (some o) side s).trace
            = [Event.cancelOrder o.order_id])
    ∧ (cfg.max_bps < get_current_bps o.price mark side →
      evaluate_band (get_current_bps o.price mark side) cfg.min_bps cfg.max_bps
          = BandDecision.cancelTooFar
        ∧ (process_side cfg mark fq (some o) side s).trace
            = [Event.cancelOrder o.order_id])
    ∧ (evaluate_band (get_current_bps o.price mark side) cfg.min_bps cfg.max_bps
          = BandDecision.keep
       ∨ evaluate_band (get_current_bps o.price mark side) cfg.min_bps cfg.max_bps
          = BandDecision.cancelTooClose
       ∨ evaluate_band (get_current_bps o.price mark side) cfg.min_bps cfg.max_bps
          = BandDecision.cancelTooFar) := by
  refine ⟨?_, ?_, ?_, ?_⟩
  · intro hin
    have he : evaluate_band (get_current_bps o.price mark side)
        cfg.min_bps cfg.max_bps = BandDecision.keep := by
      unfold evaluate_band
      rw [if_pos hin]
    simp [process_side, hq, he]
  · intro hlt
    have he : evaluate_band (get_current_bps o.price mark side)
        cfg.min_bps cfg.max_bps = BandDecision.cancelTooClose := by
      unfold evaluate_band
      rw [if_neg (fun h => absurd hlt (not_lt.mpr h.1)), if_pos hlt]
    refine ⟨he, ?_⟩
    have hq2 : ¬ fq < (10000:ℚ)⁻¹ := by simpa using hq
    by_cases hmem : o.order_id ∈ s.failCancelIds <;>
      simp [process_side, hq2, he, hd, hmem]
  · intro hgt
    have he : evaluate_band (get_current_bps o.price mark side)
        cfg.min_bps cfg.max_bps = BandDecision.cancelTooFar := by
      unfold evaluate_band
      rw [if_neg (fun h => absurd hgt (not_lt.mpr h.2)),
        if_neg (not_lt.mpr (le_trans hband (le_of_lt hgt)))]
    refine ⟨he, ?_⟩
    have hq2 : ¬ fq < (10000:ℚ)⁻¹ := by simpa using hq
    by_cases hmem : o.order_id ∈ s.failCancelIds <;>
      simp [process_side, hq2, he, hd, hmem]
  · unfold evaluate_band
    split
    · exact Or.inl rfl
    · split
      · exact Or.inr (Or.inl rfl)
      · exact Or.inr (Or.inr rfl)

/- ### Structural lemmas about the position guard and the quote step -/

theorem position_guard_success (cfg : Config) (s : ExchangeState) (p : Position)
    (h3 : s.failGetPosition = false) (h4 : s.position = some p) (h5 : p.size ≠ 0)
    (h6 : s.failCancelAll = false) (h7 : s.failClose = false) :
    position_guard cfg s =
      ⟨{ s with orders := [], position := none },
       [Event.getPosition, Event.cancelAllOrders, Event.sleep cfg.sleep_time,
        Event.closePosition, Event.sleep cfg.sleep_time], none⟩ := by
  simp [position_guard, h3, h4, h5, h6, h7]

theorem position_guard_state_fields (cfg : Config) (s : ExchangeState) :
    (position_guard cfg s).state.failGetBalance = s.failGetBalance
    ∧ (position_guard cfg s).state.balance = s.balance
    ∧ (position_guard cfg s).state.failGetOrders = s.failGetOrders
    ∧ (position_guard cfg s).state.failCancelIds = s.failCancelIds
    ∧ (position_guard cfg s).state.failPlaceBuy = s.failPlaceBuy
    ∧ (position_guard cfg s).state.failPlaceSell = s.failPlaceSell
    ∧ (position_guard cfg s).state.next_id = s.next_id := by
  by_cases h1 : s.failGetPosition
  · simp [position_guard, h1]
  · cases hp : s.position with
    | none => simp [position_guard, h1, hp]
    | some p =>
      by_cases h2 : p.size = 0
      · simp [position_guard, h1, hp, h2]
      · by_cases h3 : s.failCancelAll <;> by_cases h4 : s.failClose <;>
          simp [position_guard, h1, hp, h2, h3, h4]

theorem position_guard_orders (cfg : Config) (s : ExchangeState) :
    (position_guard cfg s).state.orders = s.orders
    ∨ (position_guard cfg s).state.orders = [] := by
  by_cases h1 : s.failGetPosition
  · left
    simp [position_guard, h1]
  · cases hp : s.position with
    | none => left; simp [position_guard, h1, hp]
    | some p =>
      by_cases h2 : p.size = 0
      · left; simp [position_guard, h1, hp, h2]
      · by_cases h3 : s.failCancelAll <;> by_cases h4 : s.failClose
        · left; simp [position_guard, h1, hp, h2, h3, h4]
        · left; simp [position_guard, h1, hp, h2, h3, h4]
        · right; simp [position_guard, h1, hp, h2, h3, h4]
        · right; simp [position_guard, h1, hp, h2, h3, h4]

theorem position_guard_trace_sub (cfg : Config) (s : ExchangeState) :
    ∀ e ∈ (position_guard cfg s).trace,
      e = Event.getPosition ∨ e = Event.cancelAllOrders
      ∨ e = Event.sleep cfg.sleep_time ∨ e = Event.closePosition := by
  intro e he
  by_cases h1 : s.failGetPosition
  · simp [position_guard, h1] at he
    tauto
  · cases hp : s.position with
    | none =>
      simp [position_guard, h1, hp] at he
      tauto
    | some p =>
      by_cases h2 : p.size = 0
      · simp [position_guard, h1, hp, h2] at he
        tauto
      · by_cases h3 : s.failCancelAll <;> by_cases h4 : s.failClose <;>
          simp [position_guard, h1, hp, h2, h3, h4] at he <;> tauto

theorem get_existing_orders_nil (s : ExchangeState) (h : s.orders = []) :
    get_existing_orders s = (none, none) := by
  unfold get_existing_orders scan_orders
  rw [h]
  split <;> rfl

theorem process_side_none (cfg : Config) (mark fq : ℚ) (side : Side)
    (st : ExchangeState) (h : ¬ fq < 1/10000) :
    process_side cfg mark fq none side st
      = ⟨st, [], some ⟨side, calculate_order_price mark cfg.target_bps side, fq⟩⟩ := by
  unfold process_side
  rw [if_neg h]

theorem place_one_trace (cfg : Config) (olev : ℤ) (info : PlaceInfo)
    (st : ExchangeState) (h1 : ¬ info.quantity < 1/10000) (h2 : cfg.dry_run = false) :
    (place_one cfg olev info st).2
      = [Event.placeOrder info.side info.price info.quantity olev] := by
  unfold place_one
  rw [if_neg h1, h2]
  by_cases h3 : failPlace st info.side <;> simp [h3]

/-- In a live run on an exchange with no resting orders and a placeable
fixed quantity, the quote step emits exactly: fetch orders, sleep, place
buy, place sell. -/
theorem cycle_quote_step_empty (cfg : Config) (mark : ℚ) (olev : ℤ)
    (st : ExchangeState) (hord : st.orders = []) (hd : cfg.dry_run = false)
    (hq : ¬ cycle_fixed_quantity cfg mark (total_equity_of st.balance) olev < 1/10000) :
    (cycle_quote_step cfg mark olev st).2
      = [Event.getOpenOrders, Event.sleep cfg.sleep_time,
         Event.placeOrder Side.buy (calculate_order_price mark cfg.target_bps Side.buy)
           (cycle_fixed_quantity cfg mark (total_equity_of st.balance) olev) olev,
         Event.placeOrder Side.sell (calculate_order_price mark cfg.target_bps Side.sell)
           (cycle_fixed_quantity cfg mark (total_equity_of st.balance) olev) olev] := by
  unfold cycle_quote_step
  rw [get_existing_orders_nil st hord]
  simp only [process_side_none cfg mark _ Side.buy st hq,
    process_side_none cfg mark _ Side.sell st hq]
  simp only [List.filterMap_cons, List.filterMap_nil, id_eq]
  simp only [place_all]
  rw [place_one_trace cfg olev _ st hq hd]
  rw [place_one_trace cfg olev _ _ hq hd]
  simp [hd]

/-- Claim C3: in a cycle whose position fetch succeeds and reports a
non-zero size (and the flatten operations themselves succeed), the first
six recorded events are exactly: fetch ticker, fetch position, cancel all
orders, settle sleep, market close, settle sleep — and the balance fetch
(the first sizing step) only occurs afterwards, so the flatten always
precedes sizing and quoting. -/
theorem claim_C3_flatten_first (cfg : Config) (s : ExchangeState) (m : ℚ)
    (p : Position)
    (h1 : s.failTicker = false) (h2 : effective_mark s.ticker = some m)
    (h3 : s.failGetPosition = false) (h4 : s.position = some p)
    (h5 : p.size ≠ 0) (h6 : s.failCancelAll = false) (h7 : s.failClose = false) :
    (run_strategy_cycle cfg s).trace.take 6
        = [Event.getTicker, Event.getPosition, Event.cancelAllOrders,
           Event.sleep cfg.sleep_time, Event.closePosition,
           Event.sleep cfg.sleep_time]
    ∧ Event.getBalance ∈ (run_strategy_cycle cfg s).trace.drop 6 := by
  have hg := position_guard_success cfg s p h3 h4 h5 h6 h7
  by_cases hd : cfg.dry_run <;> by_cases hfb : s.failGetBalance <;>
    simp [run_strategy_cycle, h1, h2, hg, hd, hfb, pyTruthy]

/-- Witness for C3 at Scenario C of the spec: a position of size 0.0005 is
flattened — cancel-all, market close and the settle sleeps come first,
the balance fetch only after. -/
theorem claim_C3_flatten_first_witness :
    (false = false ∧ effective_mark ⟨some 100000, none, none⟩ = some 100000
      ∧ false = false ∧ (5/10000 : ℚ) ≠ 0 ∧ false = false ∧ false = false)
    ∧ ((run_strategy_cycle ⟨9, 10, 8, 90, 1, 0, false⟩
          ⟨[], 1, some ⟨5/10000, none⟩, ⟨some 1000, none, 1000⟩,
            ⟨some 100000, none, none⟩,
            false, false, false, false, false, false, [], false, false⟩).trace.take 6
        = [Event.getTicker, Event.getPosition, Event.cancelAllOrders,
           Event.sleep 0, Event.closePosition, Event.sleep 0]
      ∧ Event.getBalance ∈ (run_strategy_cycle ⟨9, 10, 8, 90, 1, 0, false⟩
          ⟨[], 1, some ⟨5/10000, none⟩, ⟨some 1000, none, 1000⟩,
            ⟨some 100000, none, none⟩,
            false, false, false, false, false, false, [], false, false⟩).trace.drop 6) :=
  ⟨⟨rfl, by decide, rfl, by norm_num, rfl, rfl⟩,
   claim_C3_flatten_first ⟨9, 10, 8, 90, 1, 0, false⟩
     ⟨[], 1, some ⟨5/10000, none⟩, ⟨some 1000, none, 1000⟩,
       ⟨some 100000, none, none⟩,
       false, false, false, false, false, false, [], false, false⟩
     100000 ⟨5/10000, none⟩ rfl (by decide) rfl rfl (by norm_num) rfl rfl⟩

/-- Claim C6: when the ticker fetch fails or yields no (truthy) price, or
the balance fetch fails, the cycle returns the failure signal `False` and
performs no quoting action — no order placement and no individual order
cancellation occur anywhere in the cycle's trace. -/
theorem claim_C6_market_data_abort (cfg : Config) (s : ExchangeState)
    (h : s.failTicker = true ∨ effective_mark s.ticker = none
       ∨ s.failGetBalance = true) :
    (run_strategy_cycle cfg s).ok = false
    ∧ ∀ e ∈ (run_strategy_cycle cfg s).trace, is_quote_action e = false := by
  by_cases h1 : s.failTicker
  · refine ⟨by simp [run_strategy_cycle, h1], ?_⟩
    intro e he
    simp [run_strategy_cycle, h1] at he
    subst he
    rfl
  · cases hm : effective_mark s.ticker with
    | none =>
      refine ⟨by simp [run_strategy_cycle, h1, hm], ?_⟩
      intro e he
      simp [run_strategy_cycle, h1, hm] at he
      subst he
      rfl
    | some m =>
      have hfb : s.failGetBalance = true := by
        rcases h with h | h | h
        · exact absurd h h1
        · rw [h] at hm
          exact absurd hm (by simp)
        · exact h
      have hpres := position_guard_state_fields cfg s
      have hfb2 : (position_guard cfg s).state.failGetBalance = true :=
        hpres.1.trans hfb
      constructor
      · by_cases hc : (!pyTruthy (position_guard cfg s).existing_position_leverage
            && !cfg.dry_run) <;>
          simp [run_strategy_cycle, h1, hm, hfb2, hc]
      · intro e he
        have he2 : e = Event.getTicker ∨ e ∈ (position_guard cfg s).trace
            ∨ e = Event.changeLeverage (order_leverage_of cfg
                (position_guard cfg s).existing_position_leverage)
            ∨ e = Event.getBalance := by
          by_cases hc : (!pyTruthy (position_guard cfg s).existing_position_leverage
              && !cfg.dry_run) <;>
            simp [run_strategy_cycle, h1, hm, hfb2, hc] at he <;> tauto
        rcases he2 with rfl | he2 | rfl | rfl
        · rfl
        · rcases position_guard_trace_sub cfg s e he2 with rfl | rfl | rfl | rfl <;> rfl
        · rfl
        · rfl

/-- Witness for C6: a cycle whose balance fetch fails, with a non-zero
position (so the guard did run), returns `False` and has no quote action
in its trace. -/
theorem claim_C6_market_data_abort_witness :
    (true = true ∨ effective_mark ⟨some 100000, none, none⟩ = none
      ∨ true = true)
    ∧ ((run_strategy_cycle ⟨9, 10, 8, 90, 1, 0, false⟩
          ⟨[], 1, some ⟨5/10000, none⟩, ⟨some 1000, none, 1000⟩,
            ⟨some 100000, none, none⟩,
            false, false, false, false, true, false, [], false, false⟩).ok = false
      ∧ ∀ e ∈ (run_strategy_cycle ⟨9, 10, 8, 90, 1, 0, false⟩
          ⟨[], 1, some ⟨5/10000, none⟩, ⟨some 1000, none, 1000⟩,
            ⟨some 100000, none, none⟩,
            false, false, false, false, true, false, [], false, false⟩).trace,
          is_quote_action e = false) :=
  ⟨Or.inr (Or.inr rfl),
   claim_C6_market_data_abort ⟨9, 10, 8, 90, 1, 0, false⟩
     ⟨[], 1, some ⟨5/10000, none⟩, ⟨some 1000, none, 1000⟩,
       ⟨some 100000, none, none⟩,
       false, false, false, false, true, false, [], false, false⟩
     (Or.inr (Or.inr rfl))⟩

/-- Claim C10: when the position-guard step itself fails — `get_position`
raises, or the position is non-zero and the market close raises — the
exception is swallowed and the cycle still proceeds in the same cycle: it
returns `True`, fetches the balance (sizing), and (here, on an otherwise
clean exchange with a placeable quantity) places both quotes. -/
theorem claim_C10_guard_failure (cfg : Config) (s : ExchangeState) (m : ℚ)
    (h1 : s.failTicker = false) (h2 : effective_mark s.ticker = some m)
    (hg : s.failGetPosition = true
        ∨ ∃ p, s.position = some p ∧ p.size ≠ 0 ∧ s.failClose = true)
    (h3 : s.failGetBalance = false) (h4 : s.orders = [])
    (h5 : cfg.dry_run = false)
    (hq : ¬ cycle_fixed_quantity cfg m (total_equity_of s.balance)
            (order_leverage_of cfg
              (position_guard cfg s).existing_position_leverage) < 1/10000) :
    (run_strategy_cycle cfg s).ok = true
    ∧ Event.getBalance ∈ (run_strategy_cycle cfg s).trace
    ∧ (∃ pr q l, Event.placeOrder Side.buy pr q l ∈ (run_strategy_cycle cfg s).trace)
    ∧ (∃ pr q l, Event.placeOrder Side.sell pr q l ∈ (run_strategy_cycle cfg s).trace) := by
  have hpres := position_guard_state_fields cfg s
  have hfb2 : (position_guard cfg s).state.failGetBalance = false :=
    hpres.1.trans h3
  have hord : (position_guard cfg s).state.orders = [] := by
    rcases position_guard_orders cfg s with h | h
    · rw [h, h4]
    · exact h
  have hte : total_equity_of (position_guard cfg s).state.balance
      = total_equity_of s.balance := by rw [hpres.2.1]
  have htr := cycle_quote_step_empty cfg m
    (order_leverage_of cfg (position_guard cfg s).existing_position_leverage)
    (position_guard cfg s).state hord h5 (by rw [hte]; exact hq)
  refine ⟨?_, ?_, ?_, ?_⟩
  · by_cases hc : (!pyTruthy (position_guard cfg s).existing_position_leverage
        && !cfg.dry_run) <;>
      simp [run_strategy_cycle, h1, h2, hfb2, hc]
  · by_cases hc : (!pyTruthy (position_guard cfg s).existing_position_leverage
        && !cfg.dry_run) <;>
      simp [run_strategy_cycle, h1, h2, hfb2, hc]
  · refine ⟨calculate_order_price m cfg.target_bps Side.buy,
      cycle_fixed_quantity cfg m (total_equity_of s.balance)
        (order_leverage_of cfg (position_guard cfg s).existing_position_leverage),
      order_leverage_of cfg (position_guard cfg s).existing_position_leverage, ?_⟩
    by_cases hc : (!pyTruthy (position_guard cfg s).existing_position_leverage
        && !cfg.dry_run) <;>
      simp [run_strategy_cycle, h1, h2, hfb2, hc, htr, hte]
  · refine ⟨calculate_order_price m cfg.target_bps Side.sell,
      cycle_fixed_quantity cfg m (total_equity_of s.balance)
        (order_leverage_of cfg (position_guard cfg s).existing_position_leverage),
      order_leverage_of cfg (position_guard cfg s).existing_position_leverage, ?_⟩
    by_cases hc : (!pyTruthy (position_guard cfg s).existing_position_leverage
        && !cfg.dry_run) <;>
      simp [run_strategy_cycle, h1, h2, hfb2, hc, htr, hte]

/-- Witness for C10: `get_position` raises, yet the cycle returns `True`,
sizes from the balance, and places both quotes. -/
theorem claim_C10_guard_failure_witness :
    ((true = true ∨ ∃ p : Position,
        (some (⟨5/10000, some 3⟩ : Position)) = some p ∧ p.size ≠ 0 ∧ true = true)
      ∧ ¬ cycle_fixed_quantity ⟨9, 10, 8, 90, 1, 0, false⟩ 100000
            (total_equity_of ⟨some 1000, none, 1000⟩)
            (order_leverage_of ⟨9, 10, 8, 90, 1, 0, false⟩
              (position_guard ⟨9, 10, 8, 90, 1, 0, false⟩
                ⟨[], 1, some ⟨5/10000, some 3⟩, ⟨some 1000, none, 1000⟩,
                  ⟨some 100000, none, none⟩,
                  false, true, false, false, false, false, [], false,
                  false⟩).existing_position_leverage) < 1/10000)
    ∧ ((run_strategy_cycle ⟨9, 10, 8, 90, 1, 0, false⟩
          ⟨[], 1, some ⟨5/10000, some 3⟩, ⟨some 1000, none, 1000⟩,
            ⟨some 100000, none, none⟩,
            false, true, false, false, false, false, [], false, false⟩).ok = true
      ∧ Event.getBalance ∈ (run_strategy_cycle ⟨9, 10, 8, 90, 1, 0, false⟩
          ⟨[], 1, some ⟨5/10000, some 3⟩, ⟨some 1000, none, 1000⟩,
            ⟨some 100000, none, none⟩,
            false, true, false, false, false, false, [], false, false⟩).trace
      ∧ (∃ pr q l, Event.placeOrder Side.buy pr q l ∈
          (run_strategy_cycle ⟨9, 10, 8, 90, 1, 0, false⟩
            ⟨[], 1, some ⟨5/10000, some 3⟩, ⟨some 1000, none, 1000⟩,
              ⟨some 100000, none, none⟩,
              false, true, false, false, false, false, [], false, false⟩).trace)
      ∧ (∃ pr q l, Event.placeOrder Side.sell pr q l ∈
          (run_strategy_cycle ⟨9, 10, 8, 90, 1, 0, false⟩
            ⟨[], 1, some ⟨5/10000, some 3⟩, ⟨some 1000, none, 1000⟩,
              ⟨some 100000, none, none⟩,
              false, true, false, false, false, false, [], false, false⟩).trace)) :=
  ⟨⟨Or.inl rfl, by
      norm_num [cycle_fixed_quantity, calculate_order_quantity, quantizeSize,
        truncToward0, total_equity_of, pyOr, order_leverage_of, pyTruthy,
        intTrunc, position_guard]⟩,
   claim_C10_guard_failure ⟨9, 10, 8, 90, 1, 0, false⟩
     ⟨[], 1, some ⟨5/10000, some 3⟩, ⟨some 1000, none, 1000⟩,
       ⟨some 100000, none, none⟩,
       false, true, false, false, false, false, [], false, false⟩
     100000 rfl (by decide) (Or.inl rfl) rfl rfl rfl
     (by
      norm_num [cycle_fixed_quantity, calculate_order_quantity, quantizeSize,
        truncToward0, total_equity_of, pyOr, order_leverage_of, pyTruthy,
        intTrunc, position_guard])⟩

/-- Witness for C1 at Scenario B of the spec: an existing buy quote at 7
bps distance (mark 100000, order price 99930) with band [8, 10] is
cancelled with reason too-close. -/
theorem claim_C1_band_witness :
    ((8:ℚ) ≤ 10 ∧ ¬ ((45:ℚ)/10000 < 1/10000) ∧ false = false)
    ∧ (get_current_bps (99930:ℚ) 100000 Side.buy < 8 →
        evaluate_band (get_current_bps (99930:ℚ) 100000 Side.buy) 8 10
            = BandDecision.cancelTooClose
        ∧ (process_side ⟨9, 10, 8, 90, 1, 0, false⟩ 100000 (45/10000)
            (some ⟨1, Side.buy, 99930, 45/10000, OrderStatus.open_⟩) Side.buy
            ⟨[⟨1, Side.buy, 99930, 45/10000, OrderStatus.open_⟩], 2, none,
              ⟨some 1000, none, 1000⟩, ⟨some 100000, none, none⟩,
              false, false, false, false, false, false, [], false, false⟩).trace
          = [Event.cancelOrder 1]) :=
  ⟨⟨by norm_num, by norm_num, rfl⟩,
   (claim_C1_band ⟨9, 10, 8, 90, 1, 0, false⟩
      ⟨[⟨1, Side.buy, 99930, 45/10000, OrderStatus.open_⟩], 2, none,
        ⟨some 1000, none, 1000⟩, ⟨some 100000, none, none⟩,
        false, false, false, false, false, false, [], false, false⟩
      100000 (45/10000) ⟨1, Side.buy, 99930, 45/10000, OrderStatus.open_⟩ Side.buy
      (by norm_num) (by norm_num) rfl).2.1⟩

/- ### Lemmas for the per-side uniqueness invariant (claim C2) -/

theorem scan_aux_fst_none (l : List Order) :
    ∀ acc : Option Order × Option Order,
      (∀ o ∈ l, liveOn Side.buy o = false) → (l.foldl scan_step acc).1 = acc.1 := by
  induction l with
  | nil => intro acc _; rfl
  | cons a l ih =>
    intro acc h
    rw [List.foldl_cons, ih _ (fun o ho => h o (List.mem_cons_of_mem a ho))]
    have ha := h a (List.mem_cons_self a l)
    unfold liveOn at ha
    unfold scan_step
    by_cases hl : is_live a.status
    · cases hs : a.side
      · rw [hs] at ha
        simp [hl] at ha
      · simp [hl, hs]
    · simp [hl]

theorem scan_aux_snd_none (l : List Order) :
    ∀ acc : Option Order × Option Order,
      (∀ o ∈ l, liveOn Side.sell o = false) → (l.foldl scan_step acc).2 = acc.2 := by
  induction l with
  | nil => intro acc _; rfl
  | cons a l ih =>
    intro acc h
    rw [List.foldl_cons, ih _ (fun o ho => h o (List.mem_cons_of_mem a ho))]
    have ha := h a (List.mem_cons_self a l)
    unfold liveOn at ha
    unfold scan_step
    by_cases hl : is_live a.status
    · cases hs : a.side
      · simp [hl, hs]
      · rw [hs] at ha
        simp [hl] at ha
    · simp [hl]

theorem scan_aux_fst_mem (l : List Order) :
    ∀ acc : Option Order × Option Order,
      (l.foldl scan_step acc).1 = acc.1
      ∨ ∃ o, o ∈ l ∧ liveOn Side.buy o = true ∧ (l.foldl scan_step acc).1 = some o := by
  induction l with
  | nil => intro _; left; rfl
  | cons a l ih =>
    intro acc
    rw [List.foldl_cons]
    rcases ih (scan_step acc a) with h | ⟨o, ho, hlv, heq⟩
    · rw [h]
      by_cases hl : is_live a.status
      · cases hs : a.side
        · right
          exact ⟨a, List.mem_cons_self a l, by simp [liveOn, hs, hl],
            by simp [scan_step, hl, hs]⟩
        · left
          simp [scan_step, hl, hs]
      · left
        simp [scan_step, hl]
    · right
      exact ⟨o, List.mem_cons_of_mem a ho, hlv, heq⟩

theorem scan_aux_snd_mem (l : List Order) :
    ∀ acc : Option Order × Option Order,
      (l.foldl scan_step acc).2 = acc.2
      ∨ ∃ o, o ∈ l ∧ liveOn Side.sell o = true ∧ (l.foldl scan_step acc).2 = some o := by
  induction l with
  | nil => intro _; left; rfl
  | cons a l ih =>
    intro acc
    rw [List.foldl_cons]
    rcases ih (scan_step acc a) with h | ⟨o, ho, hlv, heq⟩
    · rw [h]
      by_cases hl : is_live a.status
      · cases hs : a.side
        · left
          simp [scan_step, hl, hs]
        · right
          exact ⟨a, List.mem_cons_self a l, by simp [liveOn, hs, hl],
            by simp [scan_step, hl, hs]⟩
      · left
        simp [scan_step, hl]
    · right
      exact ⟨o, List.mem_cons_of_mem a ho, hlv, heq⟩

theorem scan_aux_fst_isSome (l : List Order) :
    ∀ acc : Option Order × Option Order,
      acc.1.isSome = true → (l.foldl scan_step acc).1.isSome = true := by
  induction l with
  | nil => intro _ h; exact h
  | cons a l ih =>
    intro acc h
    rw [List.foldl_cons]
    apply ih
    unfold scan_step
    by_cases hl : is_live a.status
    · cases hs : a.side <;> simp [hl, hs, h]
    · simp [hl, h]

theorem scan_aux_snd_isSome (l : List Order) :
    ∀ acc : Option Order × Option Order,
      acc.2.isSome = true → (l.foldl scan_step acc).2.isSome = true := by
  induction l with
  | nil => intro _ h; exact h
  | cons a l ih =>
    intro acc h
    rw [List.foldl_cons]
    apply ih
    unfold scan_step
    by_cases hl : is_live a.status
    · cases hs : a.side <;> simp [hl, hs, h]
    · simp [hl, h]

theorem scan_fst_isSome_of_mem (l : List Order) (o : Order)
    (ho : o ∈ l) (hlv : liveOn Side.buy o = true) :
    (scan_orders l).1.isSome = true := by
  obtain ⟨l1, l2, rfl⟩ := List.append_of_mem ho
  unfold scan_orders
  rw [List.foldl_append, List.foldl_cons]
  apply scan_aux_fst_isSome
  unfold liveOn at hlv
  have hside : o.side = Side.buy := by
    by_cases hs : o.side = Side.buy
    · exact hs
    · simp [hs] at hlv
  have hl : is_live o.status = true := by
    by_cases hl : is_live o.status
    · exact hl
    · simp [hl] at hlv
  simp [scan_step, hl, hside]

theorem scan_snd_isSome_of_mem (l : List Order) (o : Order)
    (ho : o ∈ l) (hlv : liveOn Side.sell o = true) :
    (scan_orders l).2.isSome = true := by
  obtain ⟨l1, l2, rfl⟩ := List.append_of_mem ho
  unfold scan_orders
  rw [List.foldl_append, List.foldl_cons]
  apply scan_aux_snd_isSome
  unfold liveOn at hlv
  have hside : o.side = Side.sell := by
    by_cases hs : o.side = Side.sell
    · exact hs
    · simp [hs] at hlv
  have hl : is_live o.status = true := by
    by_cases hl : is_live o.status
    · exact hl
    · simp [hl] at hlv
  simp [scan_step, hl, hside]

theorem scan_fst_none_count (l : List Order)
    (h : (scan_orders l).1 = none) : l.countP (liveOn Side.buy) = 0 := by
  rw [List.countP_eq_zero]
  intro o ho hlv
  have h2 := scan_fst_isSome_of_mem l o ho hlv
  rw [h] at h2
  exact absurd h2 (by simp)

theorem scan_snd_none_count (l : List Order)
    (h : (scan_orders l).2 = none) : l.countP (liveOn Side.sell) = 0 := by
  rw [List.countP_eq_zero]
  intro o ho hlv
  have h2 := scan_snd_isSome_of_mem l o ho hlv
  rw [h] at h2
  exact absurd h2 (by simp)

theorem scan_fst_some_elim (l : List Order) (o : Order)
    (h : (scan_orders l).1 = some o) : o ∈ l ∧ liveOn Side.buy o = true := by
  rcases scan_aux_fst_mem l (none, none) with h2 | ⟨o2, hm, hlv, h2⟩
  · unfold scan_orders at h
    rw [h] at h2
    exact absurd h2 (by simp)
  · unfold scan_orders at h
    rw [h] at h2
    cases Option.some.inj h2
    exact ⟨hm, hlv⟩

theorem scan_snd_some_elim (l : List Order) (o : Order)
    (h : (scan_orders l).2 = some o) : o ∈ l ∧ liveOn Side.sell o = true := by
  rcases scan_aux_snd_mem l (none, none) with h2 | ⟨o2, hm, hlv, h2⟩
  · unfold scan_orders at h
    rw [h] at h2
    exact absurd h2 (by simp)
  · unfold scan_orders at h
    rw [h] at h2
    cases Option.some.inj h2
    exact ⟨hm, hlv⟩

theorem mem_eq_of_countP_le_one (p : Order → Bool) (l : List Order)
    (o x : Order) (ho : o ∈ l) (hpo : p o = true) (hc : l.countP p ≤ 1)
    (hx : x ∈ l) (hpx : p x = true) : x = o := by
  obtain ⟨l1, l2, rfl⟩ := List.append_of_mem ho
  rw [List.countP_append, List.countP_cons, hpo] at hc
  have hc2 : l1.countP p + (l2.countP p + 1) ≤ 1 := by simpa using hc
  have h1 : l1.countP p = 0 := by omega
  have h2 : l2.countP p = 0 := by omega
  rcases List.mem_append.mp hx with hx1 | hx2
  · exfalso
    have h3 : 0 < l1.countP p := List.countP_pos_iff.mpr ⟨x, hx1, hpx⟩
    omega
  · rcases List.mem_cons.mp hx2 with rfl | hx3
    · rfl
    · exfalso
      have h3 : 0 < l2.countP p := List.countP_pos_iff.mpr ⟨x, hx3, hpx⟩
      omega

/-- After cancelling the single live order of a side (by its id), no live
order of that side remains among orders drawn from the original book. -/
theorem countP_cancel_zero (side : Side) (l l' : List Order) (o : Order)
    (ho : o ∈ l) (hp : liveOn side o = true) (hc : l.countP (liveOn side) ≤ 1)
    (hsub : ∀ x ∈ l', x ∈ l) :
    (l'.filter (fun x => x.order_id ≠ o.order_id)).countP (liveOn side) = 0 := by
  rw [List.countP_eq_zero]
  intro x hx hpx
  rw [List.mem_filter] at hx
  have hxo : x = o :=
    mem_eq_of_countP_le_one (liveOn side) l o x ho hp hc (hsub x hx.1) hpx
  have hne : x.order_id ≠ o.order_id := by simpa using hx.2
  rw [hxo] at hne
  exact hne rfl

theorem countP_filter_le (p q : Order → Bool) (l : List Order) :
    (l.filter q).countP p ≤ l.countP p :=
  (List.filter_sublist l).countP_le p

/-- The four possible outcomes of one per-side iteration. -/
theorem process_side_cases (cfg : Config) (mark fq : ℚ) (ex : Option Order)
    (side : Side) (st : ExchangeState) :
    process_side cfg mark fq ex side st = ⟨st, [], none⟩
    ∨ (∃ o, ex = some o ∧ process_side cfg mark fq ex side st
        = ⟨st, [Event.cancelOrder o.order_id], none⟩)
    ∨ (process_side cfg mark fq ex side st
        = ⟨st, [], some ⟨side, calculate_order_price mark cfg.target_bps side, fq⟩⟩
      ∧ (ex = none ∨ cfg.dry_run = true))
    ∨ (∃ o, ex = some o ∧ cfg.dry_run = false ∧ process_side cfg mark fq ex side st
        = ⟨{ st with orders := st.orders.filter (fun x => x.order_id ≠ o.order_id) },
           [Event.cancelOrder o.order_id],
           some ⟨side, calculate_order_price mark cfg.target_bps side, fq⟩⟩) := by
  by_cases h1 : fq < 1/10000
  · left
    unfold process_side
    rw [if_pos h1]
  · have h1x : ¬ fq < (10000:ℚ)⁻¹ := by simpa using h1
    cases hex : ex with
    | none =>
      right; right; left
      exact ⟨process_side_none cfg mark fq side st h1, Or.inl rfl⟩
    | some o =>
      cases hband : evaluate_band (get_current_bps o.price mark side)
          cfg.min_bps cfg.max_bps with
      | keep =>
        left
        simp [process_side, h1x, hband]
      | cancelTooClose =>
        by_cases hd : cfg.dry_run
        · right; right; left
          constructor
          · simp [process_side, h1x, hband, hd]
          · exact Or.inr hd
        · by_cases hmem : o.order_id ∈ st.failCancelIds
          · right; left
            exact ⟨o, rfl, by simp [process_side, h1x, hband, hd, hmem]⟩
          · right; right; right
            refine ⟨o, rfl, by simpa using hd, ?_⟩
            simp [process_side, h1x, hband, hd, hmem]
      | cancelTooFar =>
        by_cases hd : cfg.dry_run
        · right; right; left
          constructor
          · simp [process_side, h1x, hband, hd]
          · exact Or.inr hd
        · by_cases hmem : o.order_id ∈ st.failCancelIds
          · right; left
            exact ⟨o, rfl, by simp [process_side, h1x, hband, hd, hmem]⟩
          · right; right; right
            refine ⟨o, rfl, by simpa using hd, ?_⟩
            simp [process_side, h1x, hband, hd, hmem]

theorem process_side_count_le (cfg : Config) (mark fq : ℚ) (ex : Option Order)
    (side side2 : Side) (st : ExchangeState) :
    (process_side cfg mark fq ex side st).state.orders.countP (liveOn side2)
      ≤ st.orders.countP (liveOn side2) := by
  rcases process_side_cases cfg mark fq ex side st with
    h | ⟨o, _, h⟩ | ⟨h, _⟩ | ⟨o, _, _, h⟩ <;> rw [h] <;>
    first
    | exact Nat.le_refl _
    | exact countP_filter_le _ _ _

theorem process_side_mem (cfg : Config) (mark fq : ℚ) (ex : Option Order)
    (side : Side) (st : ExchangeState) :
    ∀ x ∈ (process_side cfg mark fq ex side st).state.orders, x ∈ st.orders := by
  rcases process_side_cases cfg mark fq ex side st with
    h | ⟨o, _, h⟩ | ⟨h, _⟩ | ⟨o, _, _, h⟩ <;> rw [h] <;> intro x hx
  · exact hx
  · exact hx
  · exact hx
  · exact List.mem_of_mem_filter hx

theorem process_side_place_side (cfg : Config) (mark fq : ℚ) (ex : Option Order)
    (side : Side) (st : ExchangeState) (info : PlaceInfo)
    (h : (process_side cfg mark fq ex side st).to_place = some info) :
    info.side = side ∧ info.quantity = fq := by
  rcases process_side_cases cfg mark fq ex side st with
    h2 | ⟨o, _, h2⟩ | ⟨h2, _⟩ | ⟨o, _, _, h2⟩
  · rw [h2] at h
    exact absurd h (by simp)
  · rw [h2] at h
    exact absurd h (by simp)
  · rw [h2] at h
    have h3 : some (⟨side, calculate_order_price mark cfg.target_bps side, fq⟩
        : PlaceInfo) = some info := h
    cases Option.some.inj h3
    exact ⟨rfl, rfl⟩
  · rw [h2] at h
    have h3 : some (⟨side, calculate_order_price mark cfg.target_bps side, fq⟩
        : PlaceInfo) = some info := h
    cases Option.some.inj h3
    exact ⟨rfl, rfl⟩

/-- When a side is queued for placement in a live run, no live order of
that side remains on the book after the per-side step: either there was
none, or the one existing order was just cancelled. -/
theorem process_side_place_clear (cfg : Config) (mark fq : ℚ) (ex : Option Order)
    (side : Side) (st : ExchangeState) (l0 : List Order) (info : PlaceInfo)
    (hd : cfg.dry_run = false)
    (hmem : ∀ x ∈ st.orders, x ∈ l0)
    (hcount : l0.countP (liveOn side) ≤ 1)
    (hexn : ex = none → st.orders.countP (liveOn side) = 0)
    (hexs : ∀ o, ex = some o → o ∈ l0 ∧ liveOn side o = true)
    (h : (process_side cfg mark fq ex side st).to_place = some info) :
    (process_side cfg mark fq ex side st).state.orders.countP (liveOn side) = 0 := by
  rcases process_side_cases cfg mark fq ex side st with
    h2 | ⟨o, _, h2⟩ | ⟨h2, hex⟩ | ⟨o, hex, _, h2⟩
  · rw [h2] at h
    exact absurd h (by simp)
  · rw [h2] at h
    exact absurd h (by simp)
  · rcases hex with hex | hex
    · rw [h2]
      exact hexn hex
    · rw [hex] at hd
      exact absurd hd (by simp)
  · rw [h2]
    obtain ⟨hol, holv⟩ := hexs o hex
    exact countP_cancel_zero side l0 st.orders o hol holv hcount hmem

theorem place_one_orders (cfg : Config) (olev : ℤ) (info : PlaceInfo)
    (st : ExchangeState) :
    (place_one cfg olev info st).1.orders = st.orders
    ∨ (place_one cfg olev info st).1.orders
        = st.orders
          ++ [⟨st.next_id, info.side, info.price, info.quantity, OrderStatus.open_⟩] := by
  unfold place_one
  split_ifs <;> simp

theorem place_one_count_other (cfg : Config) (olev : ℤ) (info : PlaceInfo)
    (st : ExchangeState) (side : Side) (h : info.side ≠ side) :
    (place_one cfg olev info st).1.orders.countP (liveOn side)
      = st.orders.countP (liveOn side) := by
  rcases place_one_orders cfg olev info st with h1 | h1 <;> rw [h1]
  rw [List.countP_append]
  have h2 : (liveOn side
      (⟨st.next_id, info.side, info.price, info.quantity, OrderStatus.open_⟩ : Order))
      = false := by
    simp [liveOn, h]
  simp [List.countP_cons, h2]

theorem place_one_count_self (cfg : Config) (olev : ℤ) (info : PlaceInfo)
    (st : ExchangeState) (side : Side) :
    (place_one cfg olev info st).1.orders.countP (liveOn side)
      ≤ st.orders.countP (liveOn side) + 1 := by
  rcases place_one_orders cfg olev info st with h1 | h1 <;> rw [h1]
  · omega
  · rw [List.countP_append, List.countP_cons]
    simp only [List.countP_nil]
    split <;> omega

theorem place_one_dry (cfg : Config) (olev : ℤ) (info : PlaceInfo)
    (st : ExchangeState) (hd : cfg.dry_run = true) :
    (place_one cfg olev info st).1 = st := by
  unfold place_one
  rw [hd]
  simp

theorem place_all_dry (cfg : Config) (olev : ℤ) (infos : List PlaceInfo)
    (hd : cfg.dry_run = true) :
    ∀ st0 : ExchangeState, (place_all cfg olev infos st0).1 = st0 := by
  induction infos with
  | nil => intro st0; rfl
  | cons i rest ih =>
    intro st0
    show (place_all cfg olev rest (place_one cfg olev i st0).1).1 = st0
    rw [ih, place_one_dry cfg olev i st0 hd]

/-- Per-side uniqueness is preserved by the two per-side steps followed by
the placement loop, given that each side's fetched existing order really
is the (unique) live order of that side. -/
theorem two_sided_step_counts (cfg : Config) (mark fq : ℚ) (olev : ℤ)
    (st : ExchangeState) (exB exS : Option Order)
    (hb : st.orders.countP (liveOn Side.buy) ≤ 1)
    (hs : st.orders.countP (liveOn Side.sell) ≤ 1)
    (hexBn : exB = none → st.orders.countP (liveOn Side.buy) = 0)
    (hexBs : ∀ o, exB = some o → o ∈ st.orders ∧ liveOn Side.buy o = true)
    (hexSn : exS = none → st.orders.countP (liveOn Side.sell) = 0)
    (hexSs : ∀ o, exS = some o → o ∈ st.orders ∧ liveOn Side.sell o = true) :
    ((place_all cfg olev
        ([(process_side cfg mark fq exB Side.buy st).to_place,
          (process_side cfg mark fq exS Side.sell
            (process_side cfg mark fq exB Side.buy st).state).to_place].filterMap id)
        (process_side cfg mark fq exS Side.sell
          (process_side cfg mark fq exB Side.buy st).state).state).1.orders.countP
        (liveOn Side.buy) ≤ 1)
    ∧ ((place_all cfg olev
        ([(process_side cfg mark fq exB Side.buy st).to_place,
          (process_side cfg mark fq exS Side.sell
            (process_side cfg mark fq exB Side.buy st).state).to_place].filterMap id)
        (process_side cfg mark fq exS Side.sell
          (process_side cfg mark fq exB Side.buy st).state).state).1.orders.countP
        (liveOn Side.sell) ≤ 1) := by
  have memB := process_side_mem cfg mark fq exB Side.buy st
  have cntB_buy := process_side_count_le cfg mark fq exB Side.buy Side.buy st
  have cntB_sell := process_side_count_le cfg mark fq exB Side.buy Side.sell st
  have cntS_buy := process_side_count_le cfg mark fq exS Side.sell Side.buy
    (process_side cfg mark fq exB Side.buy st).state
  have cntS_sell := process_side_count_le cfg mark fq exS Side.sell Side.sell
    (process_side cfg mark fq exB Side.buy st).state
  have sideB := process_side_place_side cfg mark fq exB Side.buy st
  have sideS := process_side_place_side cfg mark fq exS Side.sell
    (process_side cfg mark fq exB Side.buy st).state
  set pB := process_side cfg mark fq exB Side.buy st with hPB
  set pS := process_side cfg mark fq exS Side.sell pB.state with hPS
  by_cases hd : cfg.dry_run
  · rw [place_all_dry cfg olev _ hd]
    exact ⟨le_trans cntS_buy (le_trans cntB_buy hb),
      le_trans cntS_sell (le_trans cntB_sell hs)⟩
  · have hd2 : cfg.dry_run = false := by simpa using hd
    have clearB : ∀ info, pB.to_place = some info →
        pB.state.orders.countP (liveOn Side.buy) = 0 := by
      intro info h
      rw [hPB] at h ⊢
      exact process_side_place_clear cfg mark fq exB Side.buy st st.orders info
        hd2 (fun x hx => hx) hb hexBn hexBs h
    have hexSn2 : exS = none → pB.state.orders.countP (liveOn Side.sell) = 0 := by
      intro h
      have h2 := hexSn h
      omega
    have clearS : ∀ info, pS.to_place = some info →
        pS.state.orders.countP (liveOn Side.sell) = 0 := by
      intro info h
      rw [hPS] at h ⊢
      exact process_side_place_clear cfg mark fq exS Side.sell pB.state st.orders
        info hd2 memB hs hexSn2 hexSs h
    cases hpB : pB.to_place with
    | none =>
      cases hpS : pS.to_place with
      | none =>
        simp only [hpB, hpS, List.filterMap_cons, List.filterMap_nil, id_eq]
        exact ⟨le_trans cntS_buy (le_trans cntB_buy hb),
          le_trans cntS_sell (le_trans cntB_sell hs)⟩
      | some iS =>
        simp only [hpB, hpS, List.filterMap_cons, List.filterMap_nil, id_eq]
        have hss : iS.side = Side.sell := (sideS iS hpS).1
        have h0 : pS.state.orders.countP (liveOn Side.sell) = 0 := clearS iS hpS
        constructor
        · show (place_one cfg olev iS pS.state).1.orders.countP (liveOn Side.buy) ≤ 1
          rw [place_one_count_other cfg olev iS pS.state Side.buy (by rw [hss]; decide)]
          exact le_trans cntS_buy (le_trans cntB_buy hb)
        · show (place_one cfg olev iS pS.state).1.orders.countP (liveOn Side.sell) ≤ 1
          have h2 := place_one_count_self cfg olev iS pS.state Side.sell
          omega
    | some iB =>
      have hbs : iB.side = Side.buy := (sideB iB hpB).1
      have h0B : pS.state.orders.countP (liveOn Side.buy) = 0 := by
        have h2 := clearB iB hpB
        omega
      cases hpS : pS.to_place with
      | none =>
        simp only [hpB, hpS, List.filterMap_cons, List.filterMap_nil, id_eq]
        constructor
        · show (place_one cfg olev iB pS.state).1.orders.countP (liveOn Side.buy) ≤ 1
          have h2 := place_one_count_self cfg olev iB pS.state Side.buy
          omega
        · show (place_one cfg olev iB pS.state).1.orders.countP (liveOn Side.sell) ≤ 1
          rw [place_one_count_other cfg olev iB pS.state Side.sell (by rw [hbs]; decide)]
          exact le_trans cntS_sell (le_trans cntB_sell hs)
      | some iS =>
        simp only [hpB, hpS, List.filterMap_cons, List.filterMap_nil, id_eq]
        have hss : iS.side = Side.sell := (sideS iS hpS).1
        have h0S : pS.state.orders.countP (liveOn Side.sell) = 0 := clearS iS hpS
        constructor
        · show (place_one cfg olev iS
              (place_one cfg olev iB pS.state).1).1.orders.countP (liveOn Side.buy) ≤ 1
          rw [place_one_count_other cfg olev iS _ Side.buy (by rw [hss]; decide)]
          have h2 := place_one_count_self cfg olev iB pS.state Side.buy
          omega
        · show (place_one cfg olev iS
              (place_one cfg olev iB pS.state).1).1.orders.countP (liveOn Side.sell) ≤ 1
          have h2 := place_one_count_self cfg olev iS
            (place_one cfg olev iB pS.state).1 Side.sell
          rw [place_one_count_other cfg olev iB pS.state Side.sell
            (by rw [hbs]; decide)] at h2
          omega

/-- The quote step preserves at-most-one-live-order per side whenever the
open-order fetch succeeded. -/
theorem cycle_quote_step_live_count (cfg : Config) (mark : ℚ) (olev : ℤ)
    (st : ExchangeState) (hf : st.failGetOrders = false)
    (hb : st.orders.countP (liveOn Side.buy) ≤ 1)
    (hs : st.orders.countP (liveOn Side.sell) ≤ 1) :
    (cycle_quote_step cfg mark olev st).1.orders.countP (liveOn Side.buy) ≤ 1
    ∧ (cycle_quote_step cfg mark olev st).1.orders.countP (liveOn Side.sell) ≤ 1 := by
  have hex : get_existing_orders st = scan_orders st.orders := by
    unfold get_existing_orders
    rw [hf]
    simp
  have key := two_sided_step_counts cfg mark
    (cycle_fixed_quantity cfg mark (total_equity_of st.balance) olev) olev st
    (scan_orders st.orders).1 (scan_orders st.orders).2 hb hs
    (fun h => scan_fst_none_count st.orders h)
    (fun o h => scan_fst_some_elim st.orders o h)
    (fun h => scan_snd_none_count st.orders h)
    (fun o h => scan_snd_some_elim st.orders o h)
  have hst : (cycle_quote_step cfg mark olev st).1
      = (place_all cfg olev
          ([(process_side cfg mark
              (cycle_fixed_quantity cfg mark (total_equity_of st.balance) olev)
              (scan_orders st.orders).1 Side.buy st).to_place,
            (process_side cfg mark
              (cycle_fixed_quantity cfg mark (total_equity_of st.balance) olev)
              (scan_orders st.orders).2 Side.sell
              (process_side cfg mark
                (cycle_fixed_quantity cfg mark (total_equity_of st.balance) olev)
                (scan_orders st.orders).1 Side.buy st).state).to_place].filterMap id)
          (process_side cfg mark
            (cycle_fixed_quantity cfg mark (total_equity_of st.balance) olev)
            (scan_orders st.orders).2 Side.sell
            (process_side cfg mark
              (cycle_fixed_quantity cfg mark (total_equity_of st.balance) olev)
              (scan_orders st.orders).1 Side.buy st).state).state).1 := by
    simp only [cycle_quote_step, hex]
  rw [hst]
  exact key

/-- Claim C2, amended: after a cycle in which the open-order fetch
succeeded and that started with at most one live quote per side, each side
again has at most one live quote — a new order is placed for a side only
when no live order for that side exists or the existing order was
successfully cancelled in the same cycle.  (The "even when fetching open
orders fails" part of the claim is false; see the counterexample.) -/
theorem claim_C2_amended (cfg : Config) (s : ExchangeState)
    (hf : s.failGetOrders = false)
    (hb : live_count s Side.buy ≤ 1) (hs : live_count s Side.sell ≤ 1) :
    live_count (run_strategy_cycle cfg s).state Side.buy ≤ 1
    ∧ live_count (run_strategy_cycle cfg s).state Side.sell ≤ 1 := by
  unfold live_count at hb hs ⊢
  by_cases h1 : s.failTicker
  · simp only [run_strategy_cycle, h1, if_true]
    exact ⟨hb, hs⟩
  · cases hm : effective_mark s.ticker with
    | none =>
      simp only [run_strategy_cycle, h1, Bool.false_eq_true, if_false, hm]
      exact ⟨hb, hs⟩
    | some m =>
      have hpres := position_guard_state_fields cfg s
      have hfg : (position_guard cfg s).state.failGetOrders = false :=
        hpres.2.2.1.trans hf
      have hbg : (position_guard cfg s).state.orders.countP (liveOn Side.buy) ≤ 1 := by
        rcases position_guard_orders cfg s with h | h <;> rw [h]
        · exact hb
        · simp
      have hsg : (position_guard cfg s).state.orders.countP (liveOn Side.sell) ≤ 1 := by
        rcases position_guard_orders cfg s with h | h <;> rw [h]
        · exact hs
        · simp
      by_cases hfb : (position_guard cfg s).state.failGetBalance
      · simp only [run_strategy_cycle, h1, Bool.false_eq_true, if_false, hm, hfb,
          if_true]
        exact ⟨hbg, hsg⟩
      · have key := cycle_quote_step_live_count cfg m
          (order_leverage_of cfg (position_guard cfg s).existing_position_leverage)
          (position_guard cfg s).state hfg hbg hsg
        simp only [run_strategy_cycle, h1, Bool.false_eq_true, if_false, hm,
          hfb] at key ⊢
        exact key

/-- Claim C2 is false as stated: with one live buy quote resting and the
open-order fetch failing, the engine treats both sides as absent and
places a second buy order — after the cycle the buy side holds two live
quotes. -/
theorem claim_C2_counterexample :
    live_count ⟨[⟨1, Side.buy, 99910, 45/10000, OrderStatus.open_⟩], 2, none,
        ⟨some 1000, none, 1000⟩, ⟨some 100000, none, none⟩,
        false, false, false, false, false, true, [], false, false⟩ Side.buy = 1
    ∧ live_count (run_strategy_cycle ⟨9, 10, 8, 90, 1, 0, false⟩
        ⟨[⟨1, Side.buy, 99910, 45/10000, OrderStatus.open_⟩], 2, none,
          ⟨some 1000, none, 1000⟩, ⟨some 100000, none, none⟩,
          false, false, false, false, false, true, [], false, false⟩).state
        Side.buy = 2 := by
  constructor
  · decide
  · norm_num [run_strategy_cycle, position_guard, cycle_quote_step, effective_mark,
      pyOr, pyTruthy, order_leverage_of, intTrunc, total_equity_of,
      cycle_fixed_quantity, calculate_order_quantity, quantizeSize, quantizeTick,
      truncToward0, get_existing_orders, scan_orders, scan_step, process_side,
      evaluate_band, get_current_bps, calculate_order_price, place_all, place_one,
      failPlace, live_count, is_live, liveOn, List.countP, List.countP.go]
    decide

/-- Witness for the amended C2: a cycle over a book holding one in-band
buy quote (fetch succeeding) ends with at most one live quote per side. -/
theorem claim_C2_amended_witness :
    (false = false
      ∧ live_count ⟨[⟨1, Side.buy, 99910, 45/10000, OrderStatus.open_⟩], 2, none,
          ⟨some 1000, none, 1000⟩, ⟨some 100000, none, none⟩,
          false, false, false, false, false, false, [], false, false⟩ Side.buy ≤ 1
      ∧ live_count ⟨[⟨1, Side.buy, 99910, 45/10000, OrderStatus.open_⟩], 2, none,
          ⟨some 1000, none, 1000⟩, ⟨some 100000, none, none⟩,
          false, false, false, false, false, false, [], false, false⟩ Side.sell ≤ 1)
    ∧ (live_count (run_strategy_cycle ⟨9, 10, 8, 90, 1, 0, false⟩
          ⟨[⟨1, Side.buy, 99910, 45/10000, OrderStatus.open_⟩], 2, none,
            ⟨some 1000, none, 1000⟩, ⟨some 100000, none, none⟩,
            false, false, false, false, false, false, [], false, false⟩).state
          Side.buy ≤ 1
      ∧ live_count (run_strategy_cycle ⟨9, 10, 8, 90, 1, 0, false⟩
          ⟨[⟨1, Side.buy, 99910, 45/10000, OrderStatus.open_⟩], 2, none,
            ⟨some 1000, none, 1000⟩, ⟨some 100000, none, none⟩,
            false, false, false, false, false, false, [], false, false⟩).state
          Side.sell ≤ 1) :=
  ⟨⟨rfl, by decide, by decide⟩,
   claim_C2_amended ⟨9, 10, 8, 90, 1, 0, false⟩
     ⟨[⟨1, Side.buy, 99910, 45/10000, OrderStatus.open_⟩], 2, none,
       ⟨some 1000, none, 1000⟩, ⟨some 100000, none, none⟩,
       false, false, false, false, false, false, [], false, false⟩
     rfl (by decide) (by decide)⟩

end MakerPoints
